import Mathlib

/-!
Shallow embedding of the tft-chess-battle engine (src/piece.py, src/board.py,
src/tft_game.py, src/card.py).  Python classes become structures, mutation
becomes explicit state passing, Python ints become Lean Int, Python lists
become Lean lists.  `float(inf)` (the unbuyable cost sentinel) is encoded as
`none : Option Int`.  Rendering, fonts, sprites and mouse geometry are
presentation-only and are not part of the embedding; log messages keep the
ring-buffer behaviour of `add_to_log` with abbreviated text.
-/

namespace TFT

/-- `Color` enum from src/piece.py. -/
inductive Color
  | white
  | black
deriving DecidableEq, Repr

/-- The other player, as computed inline in `switch_player`. -/
def Color.other : Color → Color
  | .white => .black
  | .black => .white

/-- `PieceType` enum from src/piece.py. -/
inductive PieceType
  | pawn
  | knight
  | bishop
  | rook
  | queen
  | king
deriving DecidableEq, Repr

/-- The Python class of a piece object: dynamic dispatch of
`get_valid_moves` / `get_attack_targets` goes through the subclass, so the
class is part of the object state.  `basePiece` is the bare `Piece` class
(its move and target methods return the empty list).  Note `Tower` is a
distinct class whose `piece_type` field is `ROOK`. -/
inductive PieceClass
  | basePiece
  | pawnC
  | knightC
  | bishopC
  | rookC
  | towerC
  | queenC
  | kingC
deriving DecidableEq, Repr

/-- A piece object (src/piece.py `Piece.__init__` plus the subclass
constructors).  `cost = none` encodes Python `float(inf)`. -/
structure Piece where
  cls : PieceClass
  pieceType : PieceType
  color : Color
  row : Int
  col : Int
  maxHp : Int
  hp : Int
  att : Int
  cost : Option Int
deriving DecidableEq, Repr

/-- The bare `Piece(piece_type, color, row, col)` constructor with its
default arguments `attack = 0, hp = 0, max_hp = 0, cost = float(inf)`
(src/piece.py lines 17-27).  This is the constructor `TFTGame` uses for
shop templates, purchases and the initial board. -/
def Piece.init (t : PieceType) (c : Color) (r co : Int) : Piece :=
  ⟨.basePiece, t, c, r, co, 0, 0, 0, none⟩

/-- `Pawn.__init__`: max_hp 3, attack 1, cost 1. -/
def mkPawn (c : Color) (r co : Int) : Piece :=
  ⟨.pawnC, .pawn, c, r, co, 3, 3, 1, some 1⟩

/-- `Knight.__init__`: max_hp 6, attack 3, cost 3. -/
def mkKnight (c : Color) (r co : Int) : Piece :=
  ⟨.knightC, .knight, c, r, co, 6, 6, 3, some 3⟩

/-- `Bishop.__init__`: max_hp 5, attack 2, cost 3. -/
def mkBishop (c : Color) (r co : Int) : Piece :=
  ⟨.bishopC, .bishop, c, r, co, 5, 5, 2, some 3⟩

/-- `Rook.__init__`: max_hp 8, attack 4, cost 5. -/
def mkRook (c : Color) (r co : Int) : Piece :=
  ⟨.rookC, .rook, c, r, co, 8, 8, 4, some 5⟩

/-- `Tower.__init__`: piece_type ROOK, max_hp 8, attack 4, cost 0. -/
def mkTower (c : Color) (r co : Int) : Piece :=
  ⟨.towerC, .rook, c, r, co, 8, 8, 4, some 0⟩

/-- `Queen.__init__`: max_hp 10, attack 5, cost 9. -/
def mkQueen (c : Color) (r co : Int) : Piece :=
  ⟨.queenC, .queen, c, r, co, 10, 10, 5, some 9⟩

/-- `King.__init__`: max_hp 12, attack 2, cost inf. -/
def mkKing (c : Color) (r co : Int) : Piece :=
  ⟨.kingC, .king, c, r, co, 12, 12, 2, none⟩

/-- `Piece.take_damage`: `self.hp = max(0, self.hp - damage)`. -/
def take_damage (p : Piece) (damage : Int) : Piece :=
  { p with hp := max 0 (p.hp - damage) }

/-- `Piece.is_alive`: `self.hp > 0`. -/
def is_alive (p : Piece) : Bool :=
  0 < p.hp

/-- `Piece.move_to`: update the position fields. -/
def move_to (p : Piece) (r co : Int) : Piece :=
  { p with row := r, col := co }

/-- The board grid: `self.grid`, an 8x8 list of optional pieces. -/
abbrev Grid := List (List (Option Piece))

/-- A well-formed grid: 8 rows of 8 cells, as built by `Board.__init__`. -/
def Grid.WF (g : Grid) : Prop :=
  g.length = 8 ∧ ∀ rowl ∈ g, rowl.length = 8

instance (g : Grid) : Decidable (Grid.WF g) := by
  unfold Grid.WF; exact inferInstance

/-- Raw row-major cell read `board[r][c]`.  In the source every such read
sits behind a `0 <= r < 8 and 0 <= c < 8` guard, so only nonnegative
in-range indices are exercised; absent cells read as empty. -/
def cellAt (g : Grid) (r c : Int) : Option Piece :=
  if 0 ≤ r ∧ 0 ≤ c then
    Option.join ((g.get? r.toNat).bind fun rowl => rowl.get? c.toNat)
  else none

/-- In-bounds test `0 <= r < 8 and 0 <= c < 8` used throughout the source. -/
def inB (r c : Int) : Prop :=
  0 ≤ r ∧ r < 8 ∧ 0 ≤ c ∧ c < 8

instance (r c : Int) : Decidable (inB r c) := by
  unfold inB; exact inferInstance

/-- Python list-index semantics for a list of length `len`: nonnegative
indices when `i < len`, negative indices wrap once (`-len ≤ i < 0` maps to
`i + len`), anything else raises IndexError (`none`). -/
def pyIdx (len : Nat) (i : Int) : Option Nat :=
  if 0 ≤ i ∧ i < (len : Int) then some i.toNat
  else if -(len : Int) ≤ i ∧ i < 0 then some (i + (len : Int)).toNat
  else none

/-- Python `l[i] = a` on a list: `none` is an IndexError. -/
def pySet {α : Type} (l : List α) (i : Int) (a : α) : Option (List α) :=
  match pyIdx l.length i with
  | some n => some (l.set n a)
  | none => none

/-- Python `grid[r][c] = v`: index the outer list, then assign into the
row, with genuine Python index semantics (negative wrap, IndexError). -/
def pySetGrid (g : Grid) (r c : Int) (v : Option Piece) : Option Grid :=
  match pyIdx g.length r with
  | none => none
  | some rn =>
    match g.get? rn with
    | none => none
    | some rowl => (pySet rowl c v).map fun rowl2 => g.set rn rowl2

/-- Total cell write used where the source writes with indices it has
already validated (`setCell g r c v` with `r c : Nat`). -/
def setCell (g : Grid) (r c : Nat) (v : Option Piece) : Grid :=
  match g.get? r with
  | none => g
  | some rowl => g.set r (rowl.set c v)

/-- Cell write with Int coordinates on validated paths: falls back to the
unchanged grid where Python would raise. -/
def setCellI (g : Grid) (r c : Int) (v : Option Piece) : Grid :=
  match pySetGrid g r c v with
  | some g2 => g2
  | none => g

/-- True when the cell holds a piece of the other color that is alive:
the `target_piece.color != self.color and target_piece.is_alive()` test. -/
def livingEnemyB (p : Piece) (g : Grid) (r c : Int) : Bool :=
  match cellAt g r c with
  | some q => decide (q.color ≠ p.color) && is_alive q
  | none => false

/-- `Pawn.get_valid_moves`: one step forward to an empty cell, two from the
start row (6 for White, 1 for Black) when both cells are empty. -/
def pawnMoves (p : Piece) (g : Grid) : List (Int × Int) :=
  let dir : Int := if p.color = .white then -1 else 1
  let startRow : Int := if p.color = .white then 6 else 1
  let nr := p.row + dir
  if 0 ≤ nr ∧ nr < 8 ∧ cellAt g nr p.col = none then
    (nr, p.col) ::
      (if p.row = startRow then
        let nr2 := p.row + 2 * dir
        if 0 ≤ nr2 ∧ nr2 < 8 ∧ cellAt g nr2 p.col = none then [(nr2, p.col)]
        else []
      else [])
  else []

/-- `Pawn.get_attack_targets`: the two diagonal-forward cells holding a
living enemy. -/
def pawnTargets (p : Piece) (g : Grid) : List (Int × Int) :=
  let dir : Int := if p.color = .white then -1 else 1
  [(-1 : Int), 1].flatMap fun off =>
    let nr := p.row + dir
    let nc := p.col + off
    if inB nr nc ∧ livingEnemyB p g nr nc then [(nr, nc)] else []

/-- The eight L-shape offsets of `Knight.get_valid_moves` /
`Knight.get_attack_targets`. -/
def knightOffsets : List (Int × Int) :=
  [(-2, -1), (-2, 1), (-1, -2), (-1, 2), (1, -2), (1, 2), (2, -1), (2, 1)]

/-- `Knight.get_valid_moves`: in-bounds L-shape cells that are empty or
hold a living enemy (`target_piece is None or (enemy and alive)`). -/
def knightMoves (p : Piece) (g : Grid) : List (Int × Int) :=
  knightOffsets.flatMap fun o =>
    let nr := p.row + o.1
    let nc := p.col + o.2
    if inB nr nc then
      match cellAt g nr nc with
      | none => [(nr, nc)]
      | some q =>
        if q.color ≠ p.color ∧ is_alive q then [(nr, nc)] else []
    else []

/-- `Knight.get_attack_targets`: in-bounds L-shape cells holding a living
enemy. -/
def knightTargets (p : Piece) (g : Grid) : List (Int × Int) :=
  knightOffsets.flatMap fun o =>
    let nr := p.row + o.1
    let nc := p.col + o.2
    if inB nr nc ∧ livingEnemyB p g nr nc then [(nr, nc)] else []

/-- The eight king-step offsets of `King.get_valid_moves` /
`King.get_attack_targets`. -/
def kingOffsets : List (Int × Int) :=
  [(-1, -1), (-1, 0), (-1, 1), (0, -1), (0, 1), (1, -1), (1, 0), (1, 1)]

/-- `King.get_valid_moves`: adjacent in-bounds empty cells. -/
def kingMoves (p : Piece) (g : Grid) : List (Int × Int) :=
  kingOffsets.flatMap fun o =>
    let nr := p.row + o.1
    let nc := p.col + o.2
    if inB nr nc ∧ cellAt g nr nc = none then [(nr, nc)] else []

/-- `King.get_attack_targets`: adjacent in-bounds cells holding a living
enemy. -/
def kingTargets (p : Piece) (g : Grid) : List (Int × Int) :=
  kingOffsets.flatMap fun o =>
    let nr := p.row + o.1
    let nc := p.col + o.2
    if inB nr nc ∧ livingEnemyB p g nr nc then [(nr, nc)] else []

/-- Rook / Tower slide directions. -/
def rookDirs : List (Int × Int) := [(-1, 0), (1, 0), (0, -1), (0, 1)]

/-- Bishop slide directions. -/
def bishopDirs : List (Int × Int) := [(-1, -1), (-1, 1), (1, -1), (1, 1)]

/-- Queen slide directions, in source order (rook then bishop). -/
def queenDirs : List (Int × Int) :=
  [(-1, 0), (1, 0), (0, -1), (0, 1), (-1, -1), (-1, 1), (1, -1), (1, 1)]

/-- The `for i in range(1, 8)` movement scan along one direction: collect
empty cells, stop (excluding) at the first occupied cell or the board
edge.  `n` is the remaining fuel, `i` the current multiplier. -/
def moveRayAux (g : Grid) (p : Piece) (dr dc : Int) : Nat → Int → List (Int × Int)
  | 0, _ => []
  | n + 1, i =>
    let nr := p.row + i * dr
    let nc := p.col + i * dc
    if inB nr nc then
      match cellAt g nr nc with
      | none => (nr, nc) :: moveRayAux g p dr dc n (i + 1)
      | some _ => []
    else []

/-- One direction of sliding movement (`i` runs over 1..7). -/
def moveRay (g : Grid) (p : Piece) (d : Int × Int) : List (Int × Int) :=
  moveRayAux g p d.1 d.2 7 1

/-- Sliding movement over a direction list (`Bishop/Rook/Queen
.get_valid_moves`). -/
def slideMoves (g : Grid) (p : Piece) (dirs : List (Int × Int)) : List (Int × Int) :=
  dirs.flatMap (moveRay g p)

/-- The `for i in range(1, 8)` attack scan along one direction: stop at the
first occupied cell, emitting it exactly when it holds a living enemy. -/
def targetRayAux (g : Grid) (p : Piece) (dr dc : Int) : Nat → Int → List (Int × Int)
  | 0, _ => []
  | n + 1, i =>
    let nr := p.row + i * dr
    let nc := p.col + i * dc
    if inB nr nc then
      match cellAt g nr nc with
      | none => targetRayAux g p dr dc n (i + 1)
      | some q =>
        if q.color ≠ p.color ∧ is_alive q then [(nr, nc)] else []
    else []

/-- One direction of sliding attack (`i` runs over 1..7). -/
def targetRay (g : Grid) (p : Piece) (d : Int × Int) : List (Int × Int) :=
  targetRayAux g p d.1 d.2 7 1

/-- Sliding attack over a direction list (`Bishop/Rook/Tower/Queen
.get_attack_targets`). -/
def slideTargets (g : Grid) (p : Piece) (dirs : List (Int × Int)) : List (Int × Int) :=
  dirs.flatMap (targetRay g p)

/-- Dynamic dispatch of `get_valid_moves` over the piece class.  The bare
`Piece` class and `Tower` return the empty list. -/
def get_valid_moves (p : Piece) (g : Grid) : List (Int × Int) :=
  match p.cls with
  | .basePiece => []
  | .pawnC => pawnMoves p g
  | .knightC => knightMoves p g
  | .bishopC => slideMoves g p bishopDirs
  | .rookC => slideMoves g p rookDirs
  | .towerC => []
  | .queenC => slideMoves g p queenDirs
  | .kingC => kingMoves p g

/-- Dynamic dispatch of `get_attack_targets` over the piece class. -/
def get_attack_targets (p : Piece) (g : Grid) : List (Int × Int) :=
  match p.cls with
  | .basePiece => []
  | .pawnC => pawnTargets p g
  | .knightC => knightTargets p g
  | .bishopC => slideTargets g p bishopDirs
  | .rookC => slideTargets g p rookDirs
  | .towerC => slideTargets g p rookDirs
  | .queenC => slideTargets g p queenDirs
  | .kingC => kingTargets p g

/-- `Piece.can_attack`: target in bounds, holding a living enemy, and in
the attack-target set. -/
def can_attack (p : Piece) (tr tc : Int) (g : Grid) : Bool :=
  if ¬ inB tr tc then false
  else
    match cellAt g tr tc with
    | none => false
    | some q =>
      if q.color = p.color ∨ ¬ is_alive q then false
      else decide ((tr, tc) ∈ get_attack_targets p g)

/-- `Board.get_piece_at`: bounds-checked read returning `None` out of
bounds (src/board.py lines 47-50). -/
def get_piece_at (g : Grid) (r c : Int) : Option Piece :=
  if 0 ≤ r ∧ r < 8 ∧ 0 ≤ c ∧ c < 8 then cellAt g r c else none

/-- `Board.is_valid_position`. -/
def is_valid_position (r c : Int) : Bool :=
  decide (0 ≤ r ∧ r < 8 ∧ 0 ≤ c ∧ c < 8)

/-- `Board.move_piece` (src/board.py lines 55-71): validate both
coordinates, require a piece at the origin, then clear the origin, occupy
the destination with the moved piece (its position fields updated by
`move_to`) and return whatever previously occupied the destination.  The
returned pair is (displaced piece, new grid). -/
def move_piece (g : Grid) (fr fc tr tc : Int) : Option Piece × Grid :=
  if ¬ (is_valid_position fr fc && is_valid_position tr tc) then (none, g)
  else
    match cellAt g fr fc with
    | none => (none, g)
    | some p =>
      let target := cellAt g tr tc
      let g1 := setCell g fr.toNat fc.toNat none
      let g2 := setCell g1 tr.toNat tc.toNat (some (move_to p tr tc))
      (target, g2)

/-- `Board.get_all_pieces`: row-major list of the pieces of one color
(alive or not). -/
def get_all_pieces (g : Grid) (c : Color) : List Piece :=
  (g.flatMap fun rowl => rowl.filterMap id).filter fun p => p.color = c

/-- `Board.get_king`: first piece of the color whose type is KING. -/
def get_king (g : Grid) (c : Color) : Option Piece :=
  (get_all_pieces g c).find? fun p => p.pieceType = .king

/-- `Board.is_king_alive`: the king exists and is alive. -/
def is_king_alive (g : Grid) (c : Color) : Bool :=
  match get_king g c with
  | some k => is_alive k
  | none => false

/-- `CardType` enum from src/card.py. -/
inductive CardType
  | arrowVolley
  | disarm
  | redemption
  | lightning
  | towerDefense
deriving DecidableEq, Repr

/-- A card object (src/card.py `Card.__init__`); the icon path and display
name are presentation-only and omitted. -/
structure Card where
  cardType : CardType
  immediate : Bool
  cost : Int
deriving DecidableEq, Repr

/-- A shop slot holds either a piece template or a card
(`generate_shop`). -/
inductive ShopItem
  | piece (p : Piece)
  | card (c : Card)
deriving DecidableEq, Repr

/-- `GamePhase` enum from src/tft_game.py. -/
inductive GamePhase
  | setup
  | battle
  | shop
  | endRound
deriving DecidableEq, Repr

/-- The two interaction modes of `action_mode`. -/
inductive ActionMode
  | move
  | attackMode
deriving DecidableEq, Repr

/-- The pending combat animation record set by `make_attack` (the
`start_time` and sprite `type` fields are presentation-only).  Piece
objects are aliased into the grid in Python; the embedding stores their
values together with their board positions. -/
structure CombatAnim where
  attacker : Piece
  defender : Piece
  attackerPos : Int × Int
  defenderPos : Int × Int
deriving DecidableEq, Repr

/-- The engine-relevant state of a `TFTGame` instance.  Screen layout,
fonts, sprites and drag-and-drop bookkeeping are presentation-only and
omitted.  Randomness (`generate_shop` rolls and the Lightning
`random.sample`) is injected as pre-drawn streams `shopRolls` /
`randCells`, matching the spec requirement of an injectable random
source. -/
structure GState where
  grid : Grid
  currentPlayer : Color
  selectedPos : Option (Int × Int)
  validMoves : List (Int × Int)
  attackTargets : List (Int × Int)
  actionMode : ActionMode
  gameLog : List String
  gameEnd : Bool
  roundNumber : Int
  phase : GamePhase
  whiteCoins : Int
  blackCoins : Int
  whiteReserve : List Piece
  blackReserve : List Piece
  whiteShop : List ShopItem
  blackShop : List ShopItem
  shopOpen : Bool
  battleEnded : Bool
  whiteInventory : List Card
  blackInventory : List Card
  actedWhite : Bool
  actedBlack : Bool
  combatAnim : Option CombatAnim
  shopRolls : List (List ShopItem × List ShopItem)
  randCells : List Nat
deriving DecidableEq, Repr

/-- Coins of one side. -/
def coinsOf (s : GState) (c : Color) : Int :=
  match c with
  | .white => s.whiteCoins
  | .black => s.blackCoins

/-- Update the coins of one side. -/
def setCoins (s : GState) (c : Color) (v : Int) : GState :=
  match c with
  | .white => { s with whiteCoins := v }
  | .black => { s with blackCoins := v }

/-- Reserve of one side. -/
def reserveOf (s : GState) (c : Color) : List Piece :=
  match c with
  | .white => s.whiteReserve
  | .black => s.blackReserve

/-- Update the reserve of one side. -/
def setReserve (s : GState) (c : Color) (l : List Piece) : GState :=
  match c with
  | .white => { s with whiteReserve := l }
  | .black => { s with blackReserve := l }

/-- Shop offer of one side. -/
def shopOf (s : GState) (c : Color) : List ShopItem :=
  match c with
  | .white => s.whiteShop
  | .black => s.blackShop

/-- Update the shop offer of one side. -/
def setShop (s : GState) (c : Color) (l : List ShopItem) : GState :=
  match c with
  | .white => { s with whiteShop := l }
  | .black => { s with blackShop := l }

/-- Card inventory of one side. -/
def inventoryOf (s : GState) (c : Color) : List Card :=
  match c with
  | .white => s.whiteInventory
  | .black => s.blackInventory

/-- Update the card inventory of one side. -/
def setInventory (s : GState) (c : Color) (l : List Card) : GState :=
  match c with
  | .white => { s with whiteInventory := l }
  | .black => { s with blackInventory := l }

/-- `actions_taken[c]`. -/
def actedOf (s : GState) (c : Color) : Bool :=
  match c with
  | .white => s.actedWhite
  | .black => s.actedBlack

/-- `actions_taken[c] = True`. -/
def setActed (s : GState) (c : Color) : GState :=
  match c with
  | .white => { s with actedWhite := true }
  | .black => { s with actedBlack := true }

/-- `all(self.actions_taken.values())`. -/
def allActed (s : GState) : Bool :=
  s.actedWhite && s.actedBlack

/-- `TFTGame.add_to_log`: append, then evict the oldest entry beyond 8. -/
def add_to_log (s : GState) (msg : String) : GState :=
  let l := s.gameLog ++ [msg]
  { s with gameLog := if l.length > 8 then l.drop 1 else l }

/-- `TFTGame.get_piece_cost`: the catalog cost table (kings unbuyable at
99, which is also the default). -/
def get_piece_cost (t : PieceType) : Int :=
  match t with
  | .pawn => 1
  | .knight => 3
  | .bishop => 3
  | .rook => 5
  | .queen => 9
  | .king => 99

/-- `TFTGame.can_afford`. -/
def can_afford (s : GState) (player : Color) (t : PieceType) : Bool :=
  get_piece_cost t ≤ coinsOf s player

/-- Map a function over every cell of the grid together with its row and
column index (the `for row in range(8): for col in range(8):` loops of
src/card.py). -/
def mapWithIndex {α β : Type} (f : Nat → α → β) : List α → List β
  | [] => []
  | a :: as => f 0 a :: mapWithIndex (fun n => f (n + 1)) as

/-- Apply `f row col cell` to every cell of the grid. -/
def gridMapIdx (f : Nat → Nat → Option Piece → Option Piece) (g : Grid) : Grid :=
  mapWithIndex (fun r rowl => mapWithIndex (fun c cell => f r c cell) rowl) g

/-- `Card.cleanup`: clear every cell holding a dead piece. -/
def cleanup (s : GState) : GState :=
  { s with grid := gridMapIdx (fun _ _ cell =>
      match cell with
      | some q => if ¬ is_alive q then none else some q
      | none => none) s.grid }

/-- `TFTGame.generate_shop`, with the random rolls injected as the next
entry of the pre-drawn `shopRolls` stream (one white offer and one black
offer per shop-open event). -/
def generate_shop (s : GState) : GState :=
  match s.shopRolls with
  | [] => { s with whiteShop := [], blackShop := [] }
  | r :: rest => { s with whiteShop := r.1, blackShop := r.2, shopRolls := rest }

/-- `Card.apply_effect` (src/card.py lines 43-84) followed by its final
`cleanup`.  Lightning consumes five pre-drawn cell numbers from
`randCells` in place of `random.sample(range(64), 5)`. -/
def apply_effect (c : Card) (s : GState) (player : Color) : GState :=
  let s :=
    match c.cardType with
    | .arrowVolley =>
      let s := { s with grid := gridMapIdx (fun _ _ cell =>
          match cell with
          | some q =>
            if is_alive q ∧ q.color ≠ player then
              some { q with hp := max 0 (q.hp - 1) }
            else some q
          | none => none) s.grid }
      add_to_log s "used Arrow Volley"
    | .redemption =>
      let s := { s with grid := gridMapIdx (fun r c cell =>
          match cell with
          | some q =>
            if (r + c) % 2 = 1 then
              if is_alive q then some { q with hp := max 0 (q.hp - 1) } else some q
            else
              if is_alive q then some { q with hp := min q.maxHp (q.hp + 1) } else some q
          | none => none) s.grid }
      add_to_log s "used Redemption"
    | .lightning =>
      let nums := s.randCells.take 5
      let g := nums.foldl (fun g i =>
          let r := i / 8
          let c := i % 8
          match cellAt g (r : Int) (c : Int) with
          | some q =>
            if is_alive q then setCellI g (r : Int) (c : Int) (some { q with hp := max 0 (q.hp - 3) })
            else g
          | none => g) s.grid
      let s := { s with grid := g, randCells := s.randCells.drop 5 }
      add_to_log s "used Lightning"
    | .towerDefense =>
      let s := setReserve s player (reserveOf s player ++ [mkTower player 0 0, mkTower player 0 0])
      add_to_log s "used Tower Defense"
    | .disarm => s
  cleanup s

/-- `TFTGame.buy_piece` (src/tft_game.py lines 217-266).  Returns the
Python boolean result together with the successor state.  Card purchases
deduct `item.cost`, run immediate effects (Arrow Volley, Redemption) or
store Disarm into the inventory, then pop the slot; piece purchases check
`can_afford` against the catalog cost, deduct it, append a freshly built
bare `Piece` (constructor defaults) to the reserve and pop the slot. -/
def buy_piece (s : GState) (player : Color) (shopIndex : Int) : Bool × GState :=
  let shop := shopOf s player
  if ¬ (0 ≤ shopIndex ∧ shopIndex < (shop.length : Int)) then (false, s)
  else
    match shop.get? shopIndex.toNat with
    | none => (false, s)
    | some item =>
      match item with
      | .card c =>
        let coins := coinsOf s player
        if coins < c.cost then (false, s)
        else
          let s := setCoins s player (coins - c.cost)
          let s :=
            if c.immediate then
              if c.cardType = .arrowVolley then apply_effect c s player
              else if c.cardType = .redemption then apply_effect c s player
              else s
            else if c.cardType = .disarm then
              let s := setInventory s player (inventoryOf s player ++ [c])
              add_to_log s "bought Disarm card"
            else s
          (true, setShop s player ((shopOf s player).eraseIdx shopIndex.toNat))
      | .piece pc =>
        let cost := get_piece_cost pc.pieceType
        if ¬ can_afford s player pc.pieceType then (false, s)
        else
          let s := setCoins s player (coinsOf s player - cost)
          let newPiece := Piece.init pc.pieceType player 0 0
          let s := setReserve s player (reserveOf s player ++ [newPiece])
          let s := setShop s player ((shopOf s player).eraseIdx shopIndex.toNat)
          (true, add_to_log s "bought piece")

/-- `TFTGame.try_deploy_to_position` (src/tft_game.py lines 542-568):
check the reserve index, the per-side deployment rows (White 6-7, Black
0-1) and that `get_piece_at` sees an empty destination, then write the
piece into the grid with raw Python indexing and remove it from the
reserve (`list.remove` on the identical object = removal at its index).
`none` is a Python IndexError on the raw grid write (the source mutates
the reserve piece position fields before raising; that dying state is not
recorded). -/
def try_deploy_to_position (s : GState) (player : Color) (ri row col : Int) :
    Option (Bool × GState) :=
  let reserve := reserveOf s player
  if ¬ (0 ≤ ri ∧ ri < (reserve.length : Int)) then some (false, s)
  else if player = .white ∧ ¬ (6 ≤ row ∧ row ≤ 7) then
    some (false, add_to_log s "White can only deploy in bottom rows")
  else if player = .black ∧ ¬ (0 ≤ row ∧ row ≤ 1) then
    some (false, add_to_log s "Black can only deploy in top rows")
  else if (get_piece_at s.grid row col).isSome then some (false, s)
  else
    match reserve.get? ri.toNat with
    | none => some (false, s)
    | some piece =>
      let p := { piece with row := row, col := col }
      match pySetGrid s.grid row col (some p) with
      | none => none
      | some g2 => some (true, setReserve { s with grid := g2 } player (reserve.eraseIdx ri.toNat))

/-- `TFTGame.end_game`: log and set the permanent end flag. -/
def end_game (s : GState) : GState :=
  let s := add_to_log s "Click anywhere to reset the game"
  { s with gameEnd := true }

/-- `TFTGame.start_next_round` (src/tft_game.py lines 331-346): advance
the round, reopen the shop with a fresh offer when the new round number is
1 mod 3, otherwise go to Setup; clear `battle_ended`. -/
def start_next_round (s : GState) : GState :=
  let s := { s with roundNumber := s.roundNumber + 1 }
  let s :=
    if s.roundNumber % 3 = 1 then
      let s := { s with shopOpen := true, phase := .shop }
      let s := generate_shop s
      add_to_log s "Shop is open"
    else
      let s := { s with shopOpen := false, phase := .setup }
      add_to_log s "Prepare for battle"
  { s with battleEnded := false }

/-- `TFTGame.end_battle_phase` (src/tft_game.py lines 312-323): enter
END_ROUND, pay both sides the flat +1 income, then start the next round
unless the game has ended. -/
def end_battle_phase (s : GState) : GState :=
  let s := { s with phase := .endRound, battleEnded := true,
                    whiteCoins := s.whiteCoins + 1, blackCoins := s.blackCoins + 1 }
  let s := add_to_log s "Round ended, +1 coin to both players"
  if ¬ s.gameEnd then start_next_round s else s

/-- `TFTGame.handle_piece_death`: credit the killer floor(cost / 2) coins,
minimum 1. -/
def handle_piece_death (s : GState) (dead : Piece) (killer : Color) : GState :=
  let reward := get_piece_cost dead.pieceType / 2
  let reward := if reward < 1 then 1 else reward
  let s := setCoins s killer (coinsOf s killer + reward)
  add_to_log s "kill reward"

/-- `TFTGame.switch_player`. -/
def switch_player (s : GState) : GState :=
  let s := { s with currentPlayer := s.currentPlayer.other }
  add_to_log s "turn"

/-- `TFTGame.deselect_piece`. -/
def deselect_piece (s : GState) : GState :=
  { s with selectedPos := none, validMoves := [], attackTargets := [],
           actionMode := .move }

/-- `TFTGame.check_battle_end` (src/tft_game.py lines 705-723): during
Battle only, a dead (or absent) king ends the battle immediately, pays the
winner +3 and ends the game permanently. -/
def check_battle_end (s : GState) : GState :=
  if s.phase ≠ .battle then s
  else
    let whiteAlive := is_king_alive s.grid .white
    let blackAlive := is_king_alive s.grid .black
    if ¬ whiteAlive then
      let s := add_to_log s "BLACK WINS THE BATTLE"
      let s := { s with blackCoins := s.blackCoins + 3 }
      end_game (end_battle_phase s)
    else if ¬ blackAlive then
      let s := add_to_log s "WHITE WINS THE BATTLE"
      let s := { s with whiteCoins := s.whiteCoins + 3 }
      end_game (end_battle_phase s)
    else s

/-- `TFTGame.make_move` (src/tft_game.py lines 627-646): require a living
piece at the origin; move it only when the destination is empty; then
unconditionally mark the acting side, possibly end the battle phase,
deselect, switch the active side and check for battle end. -/
def make_move (s : GState) (fr fc tr tc : Int) : GState :=
  match get_piece_at s.grid fr fc with
  | none => s
  | some movingPiece =>
    if ¬ is_alive movingPiece then s
    else
      let s :=
        match get_piece_at s.grid tr tc with
        | none => { s with grid := (move_piece s.grid fr fc tr tc).2 }
        | some _ => s
      let s := setActed s s.currentPlayer
      let s := if allActed s then end_battle_phase s else s
      let s := deselect_piece s
      let s := switch_player s
      check_battle_end s

/-- The synchronous part of `TFTGame.make_attack` (src/tft_game.py lines
648-681): validate attacker, target and `can_attack`, record the combat
animation, and run the mark-acting-side / maybe-end-battle block twice
(the block is duplicated verbatim in the source).  No damage is applied
here; the damage, removal, kill reward and turn switch are deferred to the
animation branch of `draw` (embedded as `finish_combat`). -/
def make_attack (s : GState) (ar ac tr tc : Int) : GState :=
  match get_piece_at s.grid ar ac, get_piece_at s.grid tr tc with
  | some attackingPiece, some targetPiece =>
    if ¬ is_alive attackingPiece then s
    else if ¬ is_alive targetPiece then s
    else if ¬ can_attack attackingPiece tr tc s.grid then s
    else
      let anim := CombatAnim.mk attackingPiece targetPiece (ar, ac) (tr, tc)
      let s := { s with combatAnim := some anim }
      let s := setActed s s.currentPlayer
      let s := if allActed s then end_battle_phase s else s
      let s := setActed s s.currentPlayer
      if allActed s then end_battle_phase s else s
  | _, _ => s

/-- `TFTGame.handle_combat`: apply the attacker attack value to the
defender and log the outcome.  The defender object is aliased into the
grid in Python; the embedding writes the damaged value back at the
recorded defender position. -/
def handle_combat (s : GState) (attacker defender : Piece) (defenderPos : Int × Int) :
    GState × Piece :=
  let defender2 := take_damage defender attacker.att
  let s := { s with grid := setCellI s.grid defenderPos.1 defenderPos.2 (some defender2) }
  let s := add_to_log s "attacks for damage"
  let s :=
    if ¬ is_alive defender2 then add_to_log s "is destroyed"
    else add_to_log s "HP remaining"
  (s, defender2)

/-- The deferred combat-resolution branch of `TFTGame.draw` (src/tft_game.py
lines 759-776), entered once the 600 ms animation timer has elapsed:
apply the damage, remove a destroyed defender and pay the kill reward,
then deselect, switch the active side, check for battle end and clear the
animation. -/
def finish_combat (s : GState) : GState :=
  match s.combatAnim with
  | none => s
  | some anim =>
    let (s, defender2) := handle_combat s anim.attacker anim.defender anim.defenderPos
    let s :=
      if ¬ is_alive defender2 then
        let s := { s with grid := setCellI s.grid anim.defenderPos.1 anim.defenderPos.2 none }
        handle_piece_death s anim.defender anim.attacker.color
      else s
    let s := deselect_piece s
    let s := switch_player s
    let s := check_battle_end s
    { s with combatAnim := none }

/-! ## Characterization definitions (stated from the spec wording, to be
related to the embedded source functions) -/

/-- The first occupied in-bounds cell along one ray (multipliers 1..7),
or `none` when the ray reaches the board edge over empty cells: the cell
at which the sliding scans of `get_attack_targets` stop. -/
def firstOccupiedAux (g : Grid) (p : Piece) (dr dc : Int) : Nat → Int → Option (Int × Int)
  | 0, _ => none
  | n + 1, i =>
    let nr := p.row + i * dr
    let nc := p.col + i * dc
    if inB nr nc then
      match cellAt g nr nc with
      | some _ => some (nr, nc)
      | none => firstOccupiedAux g p dr dc n (i + 1)
    else none

/-- First occupied cell along direction `d` from `p`. -/
def firstOccupied (g : Grid) (p : Piece) (d : Int × Int) : Option (Int × Int) :=
  firstOccupiedAux g p d.1 d.2 7 1

/-- The spec shape of one attack ray: the first occupied cell alone, kept
exactly when it holds a living enemy. -/
def raySpec (g : Grid) (p : Piece) (d : Int × Int) : List (Int × Int) :=
  match firstOccupied g p d with
  | some rc => if livingEnemyB p g rc.1 rc.2 then [rc] else []
  | none => []

/-- The slide-direction list of each sliding piece class (`none` for the
non-sliding classes). -/
def slidingDirsOf : PieceClass → Option (List (Int × Int))
  | .bishopC => some bishopDirs
  | .rookC => some rookDirs
  | .towerC => some rookDirs
  | .queenC => some queenDirs
  | _ => none

/-- `itemCost`: the amount `buy_piece` charges for a slot — the card cost
field for cards, the catalog cost for piece templates. -/
def itemCost : ShopItem → Int
  | .card c => c.cost
  | .piece p => get_piece_cost p.pieceType

/-- The deployment rows `try_deploy_to_position` accepts: White rows 6-7,
Black rows 0-1. -/
def zoneOk : Color → Int → Prop
  | .white, row => 6 ≤ row ∧ row ≤ 7
  | .black, row => 0 ≤ row ∧ row ≤ 1

instance (c : Color) (row : Int) : Decidable (zoneOk c row) := by
  cases c <;> (unfold zoneOk; exact inferInstance)

/-! ## Concrete boards and states for evaluations -/

/-- A row of eight empty cells. -/
def emptyRow : List (Option Piece) :=
  [none, none, none, none, none, none, none, none]

/-- The empty 8x8 grid. -/
def emptyGrid : Grid :=
  [emptyRow, emptyRow, emptyRow, emptyRow, emptyRow, emptyRow, emptyRow, emptyRow]

/-- Place pieces at their stored coordinates on the empty grid. -/
def placePieces (ps : List Piece) : Grid :=
  ps.foldl (fun g p => setCellI g p.row p.col (some p)) emptyGrid

/-- A quiescent game state used as the base of the concrete scenarios. -/
def baseState : GState :=
  { grid := emptyGrid, currentPlayer := .white, selectedPos := none,
    validMoves := [], attackTargets := [], actionMode := .move,
    gameLog := [], gameEnd := false, roundNumber := 1, phase := .battle,
    whiteCoins := 3, blackCoins := 3, whiteReserve := [], blackReserve := [],
    whiteShop := [], blackShop := [], shopOpen := false, battleEnded := false,
    whiteInventory := [], blackInventory := [], actedWhite := false,
    actedBlack := false, combatAnim := none, shopRolls := [], randCells := [] }

/-- Board with both kings alive, a White pawn at (6,1) facing a Black
pawn at (5,2). -/
def attackGrid : Grid :=
  placePieces [mkKing .white 7 0, mkKing .black 0 7, mkPawn .white 6 1, mkPawn .black 5 2]

/-- Battle scenario on `attackGrid`. -/
def attackScene : GState :=
  { baseState with grid := attackGrid }

/-- Battle scenario for the duplicated end-of-battle block: White has
already acted, Black is to act. -/
def secondAttackScene : GState :=
  { attackScene with currentPlayer := .black, actedWhite := true }

/-- Board with both kings alive, a White knight at (4,4) and a living
Black pawn on the L-shape cell (2,3). -/
def knightGrid : Grid :=
  placePieces [mkKing .white 7 0, mkKing .black 0 7, mkKnight .white 4 4, mkPawn .black 2 3]

/-- Battle scenario on `knightGrid`. -/
def knightScene : GState :=
  { baseState with grid := knightGrid }

/-- A shop offer holding a single Pawn template for White. -/
def pawnShopOffer : List ShopItem :=
  [.piece (Piece.init .pawn .white 0 0)]

/-- Shop scenario: a Pawn template in slot 0, White holding 3 coins. -/
def shopScene : GState :=
  { baseState with phase := .shop, shopOpen := true, whiteShop := pawnShopOffer }

/-- Shop scenario with exactly the Pawn cost (1 coin) in hand. -/
def exactCoinsScene : GState :=
  { shopScene with whiteCoins := 1 }

/-- Board holding only a Black queen on (6,7). -/
def deployGrid : Grid :=
  placePieces [mkQueen .black 6 7]

/-- One White knight waiting in reserve. -/
def deployReserve : List Piece :=
  [mkKnight .white 0 0]

/-- Deployment scenario: a Black queen on (6,7) and one White knight in
reserve. -/
def deployScene : GState :=
  { baseState with phase := .setup, grid := deployGrid, whiteReserve := deployReserve }

/-! ## Claim theorems -/

/-- C7: `take_damage` sets hp to `max 0 (hp - amount)`, hence never
negative; once hp is 0 any further (nonnegative) damage leaves it at 0;
`is_alive` holds exactly when hp is positive. -/
theorem take_damage_spec (p : Piece) (d : Int) :
    (take_damage p d).hp = max 0 (p.hp - d) ∧
    0 ≤ (take_damage p d).hp ∧
    (0 ≤ d → p.hp = 0 → (take_damage p d).hp = 0) ∧
    (is_alive p = true ↔ 0 < p.hp) := by
  refine ⟨rfl, le_max_left _ _, ?_, ?_⟩
  · intro hd h0
    simp only [take_damage, h0]
    omega
  · simp [is_alive]

/-- Witness for C7 at a dead bare pawn taking 5 further damage. -/
theorem take_damage_spec_witness :
    (0 : Int) ≤ 5 ∧ (Piece.init .pawn .white 0 0).hp = 0 ∧
    (take_damage (Piece.init .pawn .white 0 0) 5).hp = 0 :=
  ⟨by decide, by decide,
    (take_damage_spec (Piece.init .pawn .white 0 0) 5).2.2.1 (by decide) (by decide)⟩

/-- C10: board access is total — `get_piece_at` returns `none` out of
bounds, and `move_piece` with an out-of-bounds coordinate or an empty
origin returns `none` and leaves the grid unchanged. -/
theorem board_access_total (g : Grid) (r c fr fc tr tc : Int) :
    (¬ inB r c → get_piece_at g r c = none) ∧
    (¬ (inB fr fc ∧ inB tr tc) → move_piece g fr fc tr tc = (none, g)) ∧
    (get_piece_at g fr fc = none → move_piece g fr fc tr tc = (none, g)) := by
  refine ⟨?_, ?_, ?_⟩
  · intro h
    unfold get_piece_at
    rw [if_neg (show ¬ (0 ≤ r ∧ r < 8 ∧ 0 ≤ c ∧ c < 8) from h)]
  · intro h
    unfold move_piece is_valid_position
    rw [if_pos]
    intro hc
    rw [Bool.and_eq_true, decide_eq_true_eq, decide_eq_true_eq] at hc
    exact h ⟨hc.1, hc.2⟩
  · intro h
    by_cases hv : (is_valid_position fr fc && is_valid_position tr tc) = true
    · have hc : cellAt g fr fc = none := by
        unfold is_valid_position at hv
        rw [Bool.and_eq_true, decide_eq_true_eq, decide_eq_true_eq] at hv
        unfold get_piece_at at h
        rwa [if_pos hv.1] at h
      unfold move_piece
      rw [if_neg (by simpa using hv), hc]
    · unfold move_piece
      rw [if_pos (by simpa using hv)]

/-- Witness for C10 at coordinate (9,0) and an empty origin on the empty
grid. -/
theorem board_access_total_witness :
    ¬ inB 9 0 ∧ get_piece_at emptyGrid 9 0 = none ∧
    get_piece_at emptyGrid 3 3 = none ∧
    move_piece emptyGrid 3 3 4 4 = (none, emptyGrid) :=
  ⟨by decide, (board_access_total emptyGrid 9 0 3 3 4 4).1 (by decide), by decide,
    (board_access_total emptyGrid 9 0 3 3 4 4).2.2 (by decide)⟩

/-- C3 (code bug): when a legal attack is issued, `make_attack` returns
with the board — and in particular the defender hp — unchanged; it only
records the combat animation.  The damage is applied by the deferred
animation branch of `draw` (`finish_combat`), which here brings the
defender from 3 hp to 2 hp. -/
theorem make_attack_defers_damage :
    (make_attack attackScene 6 1 5 2).grid = attackScene.grid ∧
    get_piece_at (make_attack attackScene 6 1 5 2).grid 5 2 = some (mkPawn .black 5 2) ∧
    (mkPawn .black 5 2).hp = 3 ∧
    (make_attack attackScene 6 1 5 2).combatAnim.isSome = true ∧
    get_piece_at (finish_combat (make_attack attackScene 6 1 5 2)).grid 5 2 =
      some { mkPawn .black 5 2 with hp := 2 } := by
  decide

/-- C4 (code bug): a battle move onto an occupied destination (reachable
because the Knight move list includes enemy-occupied cells) leaves the
board unchanged but still marks the acting side as having acted and
switches the active side. -/
theorem make_move_occupied_consumes_turn :
    (2, 3) ∈ get_valid_moves (mkKnight .white 4 4) knightScene.grid ∧
    (get_piece_at knightScene.grid 2 3).isSome = true ∧
    knightScene.actedWhite = false ∧
    knightScene.currentPlayer = Color.white ∧
    (make_move knightScene 4 4 2 3).grid = knightScene.grid ∧
    (make_move knightScene 4 4 2 3).actedWhite = true ∧
    (make_move knightScene 4 4 2 3).currentPlayer = Color.black ∧
    (make_move knightScene 4 4 2 3).phase = GamePhase.battle := by
  decide

/-- C5 (code bug): a successful Pawn purchase appends a piece built by the
bare `Piece` constructor, so it enters the reserve with hp 0, max hp 0 and
attack 0 — dead on arrival instead of carrying the catalog stats. -/
theorem buy_piece_defaults_dead :
    (buy_piece shopScene .white 0).1 = true ∧
    (buy_piece shopScene .white 0).2.whiteCoins = 2 ∧
    (buy_piece shopScene .white 0).2.whiteReserve =
      [Piece.init PieceType.pawn Color.white 0 0] ∧
    (Piece.init PieceType.pawn Color.white 0 0).hp = 0 ∧
    (Piece.init PieceType.pawn Color.white 0 0).maxHp = 0 ∧
    (Piece.init PieceType.pawn Color.white 0 0).att = 0 ∧
    is_alive (Piece.init PieceType.pawn Color.white 0 0) = false := by
  decide

/-- The attack scan of a sliding piece agrees pointwise with the
first-occupied-cell characterization. -/
theorem targetRayAux_eq_spec (g : Grid) (p : Piece) (dr dc : Int) :
    ∀ (n : Nat) (i : Int), targetRayAux g p dr dc n i =
      (match firstOccupiedAux g p dr dc n i with
       | some rc => if livingEnemyB p g rc.1 rc.2 then [rc] else []
       | none => []) := by
  intro n
  induction n with
  | zero => intro i; rfl
  | succ n ih =>
    intro i
    show (if inB (p.row + i * dr) (p.col + i * dc) then
        match cellAt g (p.row + i * dr) (p.col + i * dc) with
        | none => targetRayAux g p dr dc n (i + 1)
        | some q =>
          if q.color ≠ p.color ∧ is_alive q then [(p.row + i * dr, p.col + i * dc)] else []
      else []) = _
    by_cases hb : inB (p.row + i * dr) (p.col + i * dc)
    · rw [if_pos hb]
      show _ = (match (if inB (p.row + i * dr) (p.col + i * dc) then
          match cellAt g (p.row + i * dr) (p.col + i * dc) with
          | some _ => some (p.row + i * dr, p.col + i * dc)
          | none => firstOccupiedAux g p dr dc n (i + 1)
        else none) with
        | some rc => if livingEnemyB p g rc.1 rc.2 then [rc] else []
        | none => [])
      rw [if_pos hb]
      cases hc : cellAt g (p.row + i * dr) (p.col + i * dc) with
      | none => exact ih (i + 1)
      | some q =>
        simp only [livingEnemyB, hc, Bool.and_eq_true, decide_eq_true_eq]
    · rw [if_neg hb]
      show _ = (match (if inB (p.row + i * dr) (p.col + i * dc) then
          match cellAt g (p.row + i * dr) (p.col + i * dc) with
          | some _ => some (p.row + i * dr, p.col + i * dc)
          | none => firstOccupiedAux g p dr dc n (i + 1)
        else none) with
        | some rc => if livingEnemyB p g rc.1 rc.2 then [rc] else []
        | none => [])
      rw [if_neg hb]

/-- One attack ray is exactly its spec shape. -/
theorem targetRay_eq_raySpec (g : Grid) (p : Piece) (d : Int × Int) :
    targetRay g p d = raySpec g p d := by
  unfold targetRay raySpec firstOccupied
  exact targetRayAux_eq_spec g p d.1 d.2 7 1

/-- A spec-shaped ray holds at most one cell. -/
theorem raySpec_length_le_one (g : Grid) (p : Piece) (d : Int × Int) :
    (raySpec g p d).length ≤ 1 := by
  unfold raySpec
  cases firstOccupied g p d with
  | none => simp
  | some rc =>
    show (if livingEnemyB p g rc.1 rc.2 = true then [rc] else ([] : List (Int × Int))).length ≤ 1
    by_cases hl : livingEnemyB p g rc.1 rc.2 = true
    · rw [if_pos hl]; simp
    · rw [if_neg hl]; simp

/-- Membership in a spec-shaped ray. -/
theorem mem_raySpec (g : Grid) (p : Piece) (d : Int × Int) (rc : Int × Int) :
    rc ∈ raySpec g p d ↔
      firstOccupied g p d = some rc ∧ livingEnemyB p g rc.1 rc.2 = true := by
  unfold raySpec
  cases hf : firstOccupied g p d with
  | none => simp
  | some rc2 =>
    show rc ∈ (if livingEnemyB p g rc2.1 rc2.2 = true then [rc2] else ([] : List (Int × Int))) ↔ _
    by_cases hl : livingEnemyB p g rc2.1 rc2.2 = true
    · rw [if_pos hl]
      constructor
      · intro hm
        rcases List.mem_singleton.mp hm with rfl
        exact ⟨rfl, hl⟩
      · rintro ⟨hrc, -⟩
        cases hrc
        exact List.mem_singleton.mpr rfl
    · rw [if_neg hl]
      constructor
      · intro hm; cases hm
      · rintro ⟨hrc, hle⟩
        cases hrc
        exact absurd hle hl

/-- C1: for every sliding attacker (Bishop, Rook, Queen, Tower) the attack
target list is exactly, per ray direction, the first occupied cell of the
ray kept iff it holds a living enemy — hence at most one target per ray,
no target past the first occupied cell, and none at all when the first
occupied cell holds an ally or a dead unit. -/
theorem sliding_attack_first_occupied (g : Grid) (p : Piece)
    (dirs : List (Int × Int)) (h : slidingDirsOf p.cls = some dirs) :
    get_attack_targets p g = dirs.flatMap (raySpec g p) ∧
    (∀ d ∈ dirs, (raySpec g p d).length ≤ 1) ∧
    ∀ rc, (rc ∈ get_attack_targets p g ↔
      ∃ d ∈ dirs, firstOccupied g p d = some rc ∧
        livingEnemyB p g rc.1 rc.2 = true) := by
  have hfun : targetRay g p = raySpec g p := funext (targetRay_eq_raySpec g p)
  have hmain : get_attack_targets p g = dirs.flatMap (raySpec g p) := by
    cases hcls : p.cls <;> rw [hcls] at h <;>
      simp only [slidingDirsOf, Option.some.injEq, reduceCtorEq] at h <;>
      try exact absurd h (by simp)
    all_goals subst h
    all_goals simp only [get_attack_targets, hcls, slideTargets, hfun]
  refine ⟨hmain, fun d _ => raySpec_length_le_one g p d, fun rc => ?_⟩
  rw [hmain, List.mem_flatMap]
  constructor
  · rintro ⟨d, hd, hm⟩
    exact ⟨d, hd, (mem_raySpec g p d rc).mp hm⟩
  · rintro ⟨d, hd, hm⟩
    exact ⟨d, hd, (mem_raySpec g p d rc).mpr hm⟩

/-- Witness for C1: the white bishop on the concrete battle board. -/
theorem sliding_attack_first_occupied_witness :
    slidingDirsOf (mkBishop .white 4 4).cls = some bishopDirs ∧
    get_attack_targets (mkBishop .white 4 4) attackGrid =
      bishopDirs.flatMap (raySpec attackGrid (mkBishop .white 4 4)) :=
  ⟨rfl, (sliding_attack_first_occupied attackGrid (mkBishop .white 4 4) bishopDirs rfl).1⟩

/-- C2 counterexample: the White knight move list on `knightGrid` contains
the occupied cell (2,3), so `get_valid_moves` is not restricted to empty
cells and the Knight moves are not the empty-destination subset of the
L-shape offsets. -/
theorem knight_move_includes_occupied :
    (2, 3) ∈ get_valid_moves (mkKnight .white 4 4) knightGrid ∧
    get_piece_at knightGrid 2 3 ≠ none := by
  decide

/-- Moves produced by one sliding movement ray land on empty cells only. -/
theorem moveRayAux_mem (g : Grid) (p : Piece) (dr dc : Int) :
    ∀ (n : Nat) (i : Int) (rc : Int × Int),
      rc ∈ moveRayAux g p dr dc n i → cellAt g rc.1 rc.2 = none := by
  intro n
  induction n with
  | zero => intro i rc hm; cases hm
  | succ n ih =>
    intro i rc hm
    rw [show moveRayAux g p dr dc (n + 1) i =
      (if inB (p.row + i * dr) (p.col + i * dc) then
        match cellAt g (p.row + i * dr) (p.col + i * dc) with
        | none => (p.row + i * dr, p.col + i * dc) :: moveRayAux g p dr dc n (i + 1)
        | some _ => []
      else []) from rfl] at hm
    by_cases hb : inB (p.row + i * dr) (p.col + i * dc)
    · rw [if_pos hb] at hm
      cases hc : cellAt g (p.row + i * dr) (p.col + i * dc) with
      | none =>
        rw [hc] at hm
        rcases List.mem_cons.mp hm with rfl | hm2
        · exact hc
        · exact ih (i + 1) rc hm2
      | some q => rw [hc] at hm; cases hm
    · rw [if_neg hb] at hm; cases hm

/-- Membership characterization of the Knight move list: the in-bounds
L-shape cells that are empty or hold a living enemy. -/
theorem knightMoves_mem (p : Piece) (g : Grid) (rc : Int × Int) :
    rc ∈ knightMoves p g ↔ ∃ o ∈ knightOffsets,
      rc = (p.row + o.1, p.col + o.2) ∧ inB rc.1 rc.2 ∧
      (cellAt g rc.1 rc.2 = none ∨ livingEnemyB p g rc.1 rc.2 = true) := by
  unfold knightMoves
  rw [List.mem_flatMap]
  constructor
  · rintro ⟨o, ho, hm⟩
    refine ⟨o, ho, ?_⟩
    by_cases hb : inB (p.row + o.1) (p.col + o.2)
    · rw [if_pos hb] at hm
      cases hc : cellAt g (p.row + o.1) (p.col + o.2) with
      | none =>
        rw [hc] at hm
        replace hm : rc ∈ [(p.row + o.1, p.col + o.2)] := hm
        rcases List.mem_singleton.mp hm with rfl
        exact ⟨rfl, hb, Or.inl hc⟩
      | some q =>
        rw [hc] at hm
        replace hm : rc ∈ (if q.color ≠ p.color ∧ is_alive q = true then
            [(p.row + o.1, p.col + o.2)] else ([] : List (Int × Int))) := hm
        by_cases he : q.color ≠ p.color ∧ is_alive q = true
        · rw [if_pos he] at hm
          rcases List.mem_singleton.mp hm with rfl
          refine ⟨rfl, hb, Or.inr ?_⟩
          simp [livingEnemyB, hc, he.1, he.2]
        · rw [if_neg he] at hm; cases hm
    · rw [if_neg hb] at hm; cases hm
  · rintro ⟨o, ho, hrc, hb, hcell⟩
    refine ⟨o, ho, ?_⟩
    subst hrc
    dsimp only at hb hcell
    rw [if_pos hb]
    rcases hcell with hc | hl
    · rw [hc]; exact List.mem_singleton.mpr rfl
    · cases hc : cellAt g (p.row + o.1) (p.col + o.2) with
      | none => exact List.mem_singleton.mpr rfl
      | some q =>
        unfold livingEnemyB at hl
        rw [hc] at hl
        rw [Bool.and_eq_true, decide_eq_true_eq] at hl
        show (p.row + o.1, p.col + o.2) ∈ (if q.color ≠ p.color ∧ is_alive q = true then
            [(p.row + o.1, p.col + o.2)] else ([] : List (Int × Int)))
        rw [if_pos ⟨hl.1, hl.2⟩]
        exact List.mem_singleton.mpr rfl

/-- C2 amended: every piece class except the Knight never moves onto an
occupied cell; the Knight moves are exactly the in-bounds L-shape cells
that are empty or hold a living enemy. -/
theorem valid_moves_occupancy (g : Grid) (p : Piece) :
    (p.cls ≠ .knightC → ∀ rc ∈ get_valid_moves p g, cellAt g rc.1 rc.2 = none) ∧
    (p.cls = .knightC → ∀ rc, rc ∈ get_valid_moves p g ↔ ∃ o ∈ knightOffsets,
      rc = (p.row + o.1, p.col + o.2) ∧ inB rc.1 rc.2 ∧
      (cellAt g rc.1 rc.2 = none ∨ livingEnemyB p g rc.1 rc.2 = true)) := by
  constructor
  · intro hne rc hm
    cases hcls : p.cls
    all_goals rw [show get_valid_moves p g = _ from by rw [get_valid_moves, hcls]] at hm
    · cases hm
    · -- pawn
      unfold pawnMoves at hm
      by_cases h1 : 0 ≤ p.row + (if p.color = .white then (-1 : Int) else 1) ∧
          p.row + (if p.color = .white then (-1 : Int) else 1) < 8 ∧
          cellAt g (p.row + (if p.color = .white then (-1 : Int) else 1)) p.col = none
      · rw [if_pos h1] at hm
        rcases List.mem_cons.mp hm with rfl | hm2
        · exact h1.2.2
        · by_cases h2 : p.row = (if p.color = .white then (6 : Int) else 1)
          · rw [if_pos h2] at hm2
            by_cases h3 : 0 ≤ p.row + 2 * (if p.color = .white then (-1 : Int) else 1) ∧
                p.row + 2 * (if p.color = .white then (-1 : Int) else 1) < 8 ∧
                cellAt g (p.row + 2 * (if p.color = .white then (-1 : Int) else 1)) p.col = none
            · rw [if_pos h3] at hm2
              rcases List.mem_singleton.mp hm2 with rfl
              exact h3.2.2
            · rw [if_neg h3] at hm2; cases hm2
          · rw [if_neg h2] at hm2; cases hm2
      · rw [if_neg h1] at hm; cases hm
    · exact absurd hcls hne
    · -- bishop
      rcases List.mem_flatMap.mp hm with ⟨d, -, hr⟩
      exact moveRayAux_mem g p d.1 d.2 7 1 rc hr
    · -- rook
      rcases List.mem_flatMap.mp hm with ⟨d, -, hr⟩
      exact moveRayAux_mem g p d.1 d.2 7 1 rc hr
    · cases hm
    · -- queen
      rcases List.mem_flatMap.mp hm with ⟨d, -, hr⟩
      exact moveRayAux_mem g p d.1 d.2 7 1 rc hr
    · -- king
      unfold kingMoves at hm
      rcases List.mem_flatMap.mp hm with ⟨o, -, hr⟩
      by_cases hcond : inB (p.row + o.1) (p.col + o.2) ∧
          cellAt g (p.row + o.1) (p.col + o.2) = none
      · rw [if_pos hcond] at hr
        rcases List.mem_singleton.mp hr with rfl
        exact hcond.2
      · rw [if_neg hcond] at hr; cases hr
  · intro hcls rc
    rw [show get_valid_moves p g = knightMoves p g from by rw [get_valid_moves, hcls]]
    exact knightMoves_mem p g rc

/-- Witness for C2 amended: the rook on the empty grid moves to (1,0),
which is indeed empty, and the knight characterization at (2,3). -/
theorem valid_moves_occupancy_witness :
    (mkRook .white 0 0).cls ≠ PieceClass.knightC ∧
    cellAt emptyGrid 1 0 = none :=
  ⟨by decide,
    (valid_moves_occupancy emptyGrid (mkRook .white 0 0)).1 (by decide) (1, 0) (by decide)⟩

@[simp]
theorem coinsOf_add_to_log (s : GState) (msg : String) (c : Color) :
    coinsOf (add_to_log s msg) c = coinsOf s c := by
  cases c <;> rfl

@[simp]
theorem shopOf_add_to_log (s : GState) (msg : String) (c : Color) :
    shopOf (add_to_log s msg) c = shopOf s c := by
  cases c <;> rfl

@[simp]
theorem reserveOf_add_to_log (s : GState) (msg : String) (c : Color) :
    reserveOf (add_to_log s msg) c = reserveOf s c := by
  cases c <;> rfl

@[simp]
theorem coinsOf_setCoins_same (s : GState) (c : Color) (v : Int) :
    coinsOf (setCoins s c v) c = v := by
  cases c <;> rfl

@[simp]
theorem shopOf_setCoins (s : GState) (c c' : Color) (v : Int) :
    shopOf (setCoins s c v) c' = shopOf s c' := by
  cases c <;> cases c' <;> rfl

@[simp]
theorem reserveOf_setCoins (s : GState) (c c' : Color) (v : Int) :
    reserveOf (setCoins s c v) c' = reserveOf s c' := by
  cases c <;> cases c' <;> rfl

@[simp]
theorem coinsOf_setShop (s : GState) (c c' : Color) (l : List ShopItem) :
    coinsOf (setShop s c l) c' = coinsOf s c' := by
  cases c <;> cases c' <;> rfl

@[simp]
theorem shopOf_setShop_same (s : GState) (c : Color) (l : List ShopItem) :
    shopOf (setShop s c l) c = l := by
  cases c <;> rfl

@[simp]
theorem reserveOf_setShop (s : GState) (c c' : Color) (l : List ShopItem) :
    reserveOf (setShop s c l) c' = reserveOf s c' := by
  cases c <;> cases c' <;> rfl

@[simp]
theorem coinsOf_setReserve (s : GState) (c c' : Color) (l : List Piece) :
    coinsOf (setReserve s c l) c' = coinsOf s c' := by
  cases c <;> cases c' <;> rfl

@[simp]
theorem shopOf_setReserve (s : GState) (c c' : Color) (l : List Piece) :
    shopOf (setReserve s c l) c' = shopOf s c' := by
  cases c <;> cases c' <;> rfl

@[simp]
theorem reserveOf_setReserve_same (s : GState) (c : Color) (l : List Piece) :
    reserveOf (setReserve s c l) c = l := by
  cases c <;> rfl

@[simp]
theorem coinsOf_setInventory (s : GState) (c c' : Color) (l : List Card) :
    coinsOf (setInventory s c l) c' = coinsOf s c' := by
  cases c <;> cases c' <;> rfl

@[simp]
theorem shopOf_setInventory (s : GState) (c c' : Color) (l : List Card) :
    shopOf (setInventory s c l) c' = shopOf s c' := by
  cases c <;> cases c' <;> rfl

@[simp]
theorem coinsOf_cleanup (s : GState) (c : Color) :
    coinsOf (cleanup s) c = coinsOf s c := by
  cases c <;> rfl

@[simp]
theorem shopOf_cleanup (s : GState) (c : Color) :
    shopOf (cleanup s) c = shopOf s c := by
  cases c <;> rfl

/-- Card effects never touch either side's coins. -/
@[simp]
theorem coinsOf_apply_effect (c0 : Card) (s : GState) (player col : Color) :
    coinsOf (apply_effect c0 s player) col = coinsOf s col := by
  rcases c0 with ⟨ct, imm, cost⟩
  cases ct <;> cases player <;> cases col <;> rfl

/-- Card effects never touch either side's shop offer. -/
@[simp]
theorem shopOf_apply_effect (c0 : Card) (s : GState) (player col : Color) :
    shopOf (apply_effect c0 s player) col = shopOf s col := by
  rcases c0 with ⟨ct, imm, cost⟩
  cases ct <;> cases player <;> cases col <;> rfl

/-- C6: for every side and every valid shop slot, a purchase succeeds iff
the side holds at least the item cost; with exactly enough coins it
succeeds, the currency drops to 0 and the slot is removed from the offer;
with fewer coins it fails and the whole state — currency, reserve and
shop included — is unchanged. -/
theorem buy_piece_affordability (s : GState) (player : Color) (i : Int)
    (hi : 0 ≤ i ∧ i < ((shopOf s player).length : Int))
    (item : ShopItem) (hitem : (shopOf s player).get? i.toNat = some item) :
    ((buy_piece s player i).1 = true ↔ itemCost item ≤ coinsOf s player) ∧
    (coinsOf s player = itemCost item →
      (buy_piece s player i).1 = true ∧
      coinsOf (buy_piece s player i).2 player = 0 ∧
      shopOf (buy_piece s player i).2 player = (shopOf s player).eraseIdx i.toNat) ∧
    (coinsOf s player < itemCost item →
      (buy_piece s player i).1 = false ∧ (buy_piece s player i).2 = s) := by
  simp only [buy_piece]
  rw [if_neg (not_not_intro hi), hitem]
  cases item with
  | card c =>
    dsimp only
    by_cases hlt : coinsOf s player < c.cost
    · rw [if_pos hlt]
      refine ⟨?_, ?_, ?_⟩
      · simp only [itemCost]
        constructor
        · intro hx; cases hx
        · intro hx; omega
      · intro heq
        simp only [itemCost] at heq
        omega
      · intro _
        exact ⟨rfl, rfl⟩
    · rw [if_neg hlt]
      refine ⟨?_, ?_, ?_⟩
      · simp only [itemCost]
        constructor
        · intro _; omega
        · intro _; trivial
      · intro heq
        refine ⟨rfl, ?_, ?_⟩
        · simp only [itemCost] at heq
          split_ifs <;> simp <;> omega
        · split_ifs <;> simp
      · intro hcon
        simp only [itemCost] at hcon
        omega
  | piece pc =>
    dsimp only
    by_cases haff : can_afford s player pc.pieceType = true
    · rw [if_neg (not_not_intro haff)]
      simp only [can_afford, decide_eq_true_eq] at haff
      refine ⟨?_, ?_, ?_⟩
      · simp only [itemCost]
        constructor
        · intro _; exact haff
        · intro _; trivial
      · intro heq
        simp only [itemCost] at heq
        refine ⟨rfl, ?_, ?_⟩
        · simp
          omega
        · simp
      · intro hcon
        simp only [itemCost] at hcon
        omega
    · rw [if_pos haff]
      simp only [can_afford, decide_eq_true_eq] at haff
      refine ⟨?_, ?_, ?_⟩
      · simp only [itemCost]
        constructor
        · intro hx; cases hx
        · intro hx; exact absurd hx haff
      · intro heq
        simp only [itemCost] at heq
        omega
      · intro _
        exact ⟨rfl, rfl⟩

/-- Witness for C6: White buys the slot-0 Pawn with exactly 1 coin. -/
theorem buy_piece_affordability_witness :
    (0 ≤ (0 : Int) ∧ (0 : Int) < ((shopOf exactCoinsScene .white).length : Int)) ∧
    (shopOf exactCoinsScene .white).get? (0 : Int).toNat =
      some (.piece (Piece.init .pawn .white 0 0)) ∧
    coinsOf exactCoinsScene .white = itemCost (.piece (Piece.init .pawn .white 0 0)) ∧
    ((buy_piece exactCoinsScene .white 0).1 = true ∧
      coinsOf (buy_piece exactCoinsScene .white 0).2 .white = 0 ∧
      shopOf (buy_piece exactCoinsScene .white 0).2 .white =
        (shopOf exactCoinsScene .white).eraseIdx (0 : Int).toNat) :=
  ⟨by decide, by decide, by decide,
    (buy_piece_affordability exactCoinsScene .white 0 (by decide)
      (.piece (Piece.init .pawn .white 0 0)) (by decide)).2.1 (by decide)⟩

/-- C8 counterexample: deploying to column -1 succeeds although the cell
the write actually lands on, (6,7) via Python negative indexing, is
occupied — the emptiness check treated (6,-1) as out of bounds while the
raw write wrapped around, so the Black queen is silently overwritten. -/
theorem try_deploy_negative_col_overwrite :
    get_piece_at deployScene.grid 6 7 = some (mkQueen .black 6 7) ∧
    (try_deploy_to_position deployScene .white 0 6 (-1)).map Prod.fst = some true ∧
    ((try_deploy_to_position deployScene .white 0 6 (-1)).map
      fun x => get_piece_at x.2.grid 6 7) =
      some (some { mkKnight .white 0 0 with row := 6, col := -1 }) ∧
    ((try_deploy_to_position deployScene .white 0 6 (-1)).map
      fun x => x.2.whiteReserve) = some [] := by
  decide

@[simp]
theorem grid_add_to_log (s : GState) (msg : String) :
    (add_to_log s msg).grid = s.grid := rfl

@[simp]
theorem grid_setReserve (s : GState) (c : Color) (l : List Piece) :
    (setReserve s c l).grid = s.grid := by
  cases c <;> rfl

@[simp]
theorem reserveOf_setReserve_other (s : GState) (c : Color) (l : List Piece) :
    reserveOf (setReserve s c l) c.other = reserveOf s c.other := by
  cases c <;> rfl

@[simp]
theorem reserveOf_gridUpdate (s : GState) (g : Grid) (c : Color) :
    reserveOf { s with grid := g } c = reserveOf s c := by
  cases c <;> rfl

/-- A raw Python grid write with in-bounds nonnegative coordinates on a
well-formed grid is the plain cell write. -/
theorem pySetGrid_inbounds (g : Grid) (hg : Grid.WF g) (r c : Int)
    (hr : 0 ≤ r ∧ r < 8) (hc : 0 ≤ c ∧ c < 8) (v : Option Piece) :
    pySetGrid g r c v = some (setCell g r.toNat c.toNat v) := by
  obtain ⟨hlen, hrows⟩ := hg
  have hrn : r.toNat < g.length := by omega
  obtain ⟨rowl, hrowl⟩ : ∃ rowl, g.get? r.toNat = some rowl := by
    rw [List.get?_eq_get hrn]
    exact ⟨_, rfl⟩
  have hrl : rowl.length = 8 := hrows rowl (List.get?_mem hrowl)
  have h1 : pyIdx g.length r = some r.toNat := by
    unfold pyIdx
    rw [if_pos ⟨hr.1, by omega⟩]
  have h2 : pyIdx rowl.length c = some c.toNat := by
    unfold pyIdx
    rw [if_pos ⟨hc.1, by omega⟩]
  have h3 : pySet rowl c v = some (rowl.set c.toNat v) := by
    unfold pySet
    rw [h2]
  unfold pySetGrid
  rw [h1]
  show (match g.get? r.toNat with
    | none => none
    | some rowl => (pySet rowl c v).map fun rowl2 => g.set r.toNat rowl2) =
    some (setCell g r.toNat c.toNat v)
  rw [hrowl]
  show (pySet rowl c v).map (fun rowl2 => g.set r.toNat rowl2) =
    some (setCell g r.toNat c.toNat v)
  rw [h3]
  show some (g.set r.toNat (rowl.set c.toNat v)) = some (setCell g r.toNat c.toNat v)
  unfold setCell
  rw [hrowl]

/-- C8 amended: restricted to in-bounds destination columns (0 ≤ col < 8)
on a well-formed board, a deploy never raises, succeeds exactly when the
reserve index is valid, the row lies in the acting side's deployment rows
and the destination cell is empty; on success exactly the chosen reserve
entry is removed and that unit (with hp, attack and max hp unchanged)
is written to exactly the destination cell; on failure the board and both
reserves are unchanged. -/
theorem try_deploy_spec (s : GState) (player : Color) (ri row col : Int)
    (hg : Grid.WF s.grid) (hcol : 0 ≤ col ∧ col < 8) :
    ∃ ok s2, try_deploy_to_position s player ri row col = some (ok, s2) ∧
      ((ok = true) ↔ (0 ≤ ri ∧ ri < ((reserveOf s player).length : Int) ∧
        zoneOk player row ∧ get_piece_at s.grid row col = none)) ∧
      (ok = true → ∃ p, (reserveOf s player).get? ri.toNat = some p ∧
        s2.grid = setCell s.grid row.toNat col.toNat
          (some { p with row := row, col := col }) ∧
        reserveOf s2 player = (reserveOf s player).eraseIdx ri.toNat ∧
        reserveOf s2 player.other = reserveOf s player.other ∧
        ({ p with row := row, col := col } : Piece).hp = p.hp ∧
        ({ p with row := row, col := col } : Piece).att = p.att ∧
        ({ p with row := row, col := col } : Piece).maxHp = p.maxHp) ∧
      (ok = false → s2.grid = s.grid ∧
        reserveOf s2 .white = reserveOf s .white ∧
        reserveOf s2 .black = reserveOf s .black) := by
  by_cases hidx : 0 ≤ ri ∧ ri < ((reserveOf s player).length : Int)
  case neg =>
    have hkey : try_deploy_to_position s player ri row col = some (false, s) := by
      unfold try_deploy_to_position
      rw [if_pos hidx]
    refine ⟨false, s, hkey, ?_, ?_, ?_⟩
    · constructor
      · intro h; cases h
      · rintro ⟨h1, h2, -⟩; exact absurd ⟨h1, h2⟩ hidx
    · intro h; cases h
    · intro _; exact ⟨rfl, rfl, rfl⟩
  case pos =>
    by_cases hzone : zoneOk player row
    · have hz1 : ¬ (player = Color.white ∧ ¬ (6 ≤ row ∧ row ≤ 7)) := by
        rintro ⟨hw, hz⟩
        subst hw
        exact hz hzone
      have hz2 : ¬ (player = Color.black ∧ ¬ (0 ≤ row ∧ row ≤ 1)) := by
        rintro ⟨hb, hz⟩
        subst hb
        exact hz hzone
      by_cases hocc : (get_piece_at s.grid row col).isSome = true
      · have hkey : try_deploy_to_position s player ri row col = some (false, s) := by
          unfold try_deploy_to_position
          rw [if_neg (not_not_intro hidx), if_neg hz1, if_neg hz2, if_pos hocc]
        refine ⟨false, s, hkey, ?_, ?_, ?_⟩
        · constructor
          · intro h; cases h
          · rintro ⟨-, -, -, hemp⟩
            rw [hemp] at hocc
            cases hocc
        · intro h; cases h
        · intro _; exact ⟨rfl, rfl, rfl⟩
      · obtain ⟨p, hpe⟩ : ∃ p, (reserveOf s player).get? ri.toNat = some p := by
          have hlt : ri.toNat < (reserveOf s player).length := by omega
          rw [List.get?_eq_get hlt]
          exact ⟨_, rfl⟩
        have hrow : 0 ≤ row ∧ row < 8 := by
          cases player <;> simp only [zoneOk] at hzone <;> omega
        have hkey : try_deploy_to_position s player ri row col = some (true, setReserve { s with grid := setCell s.grid row.toNat col.toNat (some { p with row := row, col := col }) } player ((reserveOf s player).eraseIdx ri.toNat)) := by
          unfold try_deploy_to_position
          rw [if_neg (not_not_intro hidx), if_neg hz1, if_neg hz2, if_neg hocc, hpe]
          show (match pySetGrid s.grid row col
              (some { p with row := row, col := col }) with
            | none => none
            | some g2 => some (true, setReserve { s with grid := g2 } player
                ((reserveOf s player).eraseIdx ri.toNat))) = _
          rw [pySetGrid_inbounds s.grid hg row col hrow hcol
            (some { p with row := row, col := col })]
        refine ⟨true, _, hkey, ?_, ?_, ?_⟩
        · constructor
          · intro _
            exact ⟨hidx.1, hidx.2, hzone, Option.not_isSome_iff_eq_none.mp hocc⟩
          · intro _; rfl
        · intro _
          refine ⟨p, hpe, ?_, ?_, ?_, rfl, rfl, rfl⟩
          · simp
          · simp
          · simp
        · intro h; cases h
    · cases player with
      | white =>
        have hz : Color.white = Color.white ∧ ¬ (6 ≤ row ∧ row ≤ 7) :=
          ⟨rfl, fun hr => hzone hr⟩
        have hkey : try_deploy_to_position s .white ri row col =
            some (false, add_to_log s "White can only deploy in bottom rows") := by
          unfold try_deploy_to_position
          rw [if_neg (not_not_intro hidx), if_pos hz]
        refine ⟨false, _, hkey, ?_, ?_, ?_⟩
        · constructor
          · intro h; cases h
          · rintro ⟨-, -, hzz, -⟩; exact absurd hzz hzone
        · intro h; cases h
        · intro _; exact ⟨rfl, by simp, by simp⟩
      | black =>
        have hz1 : ¬ (Color.black = Color.white ∧ ¬ (6 ≤ row ∧ row ≤ 7)) := by
          rintro ⟨hb, -⟩; cases hb
        have hz : Color.black = Color.black ∧ ¬ (0 ≤ row ∧ row ≤ 1) :=
          ⟨rfl, fun hr => hzone hr⟩
        have hkey : try_deploy_to_position s .black ri row col =
            some (false, add_to_log s "Black can only deploy in top rows") := by
          unfold try_deploy_to_position
          rw [if_neg (not_not_intro hidx), if_neg hz1, if_pos hz]
        refine ⟨false, _, hkey, ?_, ?_, ?_⟩
        · constructor
          · intro h; cases h
          · rintro ⟨-, -, hzz, -⟩; exact absurd hzz hzone
        · intro h; cases h
        · intro _; exact ⟨rfl, by simp, by simp⟩

/-- Witness for C8 amended: deploying the reserve knight to the empty
in-bounds cell (6,3). -/
theorem try_deploy_spec_witness :
    Grid.WF deployScene.grid ∧ (0 ≤ (3 : Int) ∧ (3 : Int) < 8) ∧
    (try_deploy_to_position deployScene .white 0 6 3).isSome = true := by
  refine ⟨by decide, by decide, ?_⟩
  obtain ⟨ok, s2, heq, -⟩ :=
    try_deploy_spec deployScene .white 0 6 3 (by decide) (by decide)
  rw [heq]
  rfl

/-- C9 (code bug): when the second action of the round is an attack, the
duplicated mark-acted / end-battle block in `make_attack` runs
`end_battle_phase` twice: both sides gain 2 coins instead of 1 and the
round number jumps from 1 to 3. -/
theorem make_attack_double_round_end :
    secondAttackScene.roundNumber = 1 ∧
    secondAttackScene.whiteCoins = 3 ∧
    secondAttackScene.blackCoins = 3 ∧
    (make_attack secondAttackScene 5 2 6 1).roundNumber = 3 ∧
    (make_attack secondAttackScene 5 2 6 1).whiteCoins = 5 ∧
    (make_attack secondAttackScene 5 2 6 1).blackCoins = 5 ∧
    (make_attack secondAttackScene 5 2 6 1).phase = GamePhase.setup := by
  decide

end TFT
